import Mathlib

/-
Shallow embedding of the repository Phystro/QuantumErrorCorrection,
source file src/3-qubit-code/3-qubit-code.py (a Jupyter-exported script
demonstrating the 3-qubit bit-flip code on Qiskit).

Modelling notes.

* Qubit indices follow Qiskit register-addition order for
  QuantumCircuit(q, d, a): q = 0, d[0] = 1, d[1] = 2, a[0] = 3, a[1] = 4.

* A circuit records its gates as a list in append order, plus the list of
  (qubit, classical bit) measurement pairs appended at the end of qcirc.

* The external simulator (qiskit.providers.aer.QasmSimulator) is embedded
  classically.  Every circuit built by qcirc starts in the basis state
  |00000> and applies only I, X, Y, Z and CX gates; each of these maps a
  computational-basis state to a computational-basis state (up to a global
  phase that measurement statistics cannot observe): I and Z leave the bit
  unchanged, X and Y flip it, CX flips the target bit iff the control bit
  is set.  Measurement outcomes are therefore deterministic, and all 1024
  shots produce the same bit string, so get_counts returns a one-entry
  histogram {key : shots}.  A Qiskit counts key prints the classical bits
  with the highest classical index leftmost.

* qcirc takes an `Option ErrorSims` argument: `some tag` is a call with
  one of the eleven enumeration members, and `none` models any Python
  value outside the enumeration (the type annotation is not enforced at
  runtime).  For `none` the `match` statement of the source matches no
  case and execution falls through, appending no error-injection gates:
  a Python `match` without a wildcard case executes nothing when no
  pattern matches.  No statement in the body of qcirc or qcirc_sim can
  raise an exception, which `qcircE` records with an `Except` result type.

* Python dicts (the Counts histogram) are modelled as insertion-ordered
  association lists with pairwise-distinct keys; iteration over a dict
  iterates its keys in insertion order, and assignment to an existing key
  overwrites its value in place.
-/

/-- The eleven error scenarios of the `ErrorSims` enumeration. -/
inductive ErrorSims
  | NoError
  | XError1
  | XError2
  | XError3
  | XError12
  | XError13
  | XError23
  | ZError1
  | ZError2
  | YError1
  | YError2
deriving DecidableEq, Fintype, Repr

/-- Circuit operations appended by the script: identity, Pauli X, Y, Z on a
single qubit, controlled-X, and a barrier. -/
inductive Gate
  | i (q : Nat)
  | x (q : Nat)
  | y (q : Nat)
  | z (q : Nat)
  | cx (c t : Nat)
  | barrier
deriving DecidableEq, Repr

/-- The target of a single-qubit gate; `none` for CX and barriers. -/
def Gate.target1 : Gate → Option Nat
  | .i q => some q
  | .x q => some q
  | .y q => some q
  | .z q => some q
  | .cx _ _ => none
  | .barrier => none

/-- A quantum circuit: qubit and classical-bit counts, the gate list in
append order, and the (qubit, clbit) measurement pairs. -/
structure QuantumCircuit where
  numQubits : Nat
  numClbits : Nat
  gates : List Gate
  measurements : List (Nat × Nat)
deriving DecidableEq, Repr

/-- The encoding block of qcirc: `qc.cx(q, d[0]); qc.cx(d[0], d[1]);
qc.barrier()`. -/
def encodeGates : List Gate := [.cx 0 1, .cx 1 2, .barrier]

/-- The error-injection gates selected by the `match` statement of qcirc.
`none` models an argument outside the enumeration: no case matches and no
gate is appended. -/
def errGates : Option ErrorSims → List Gate
  | some .NoError => [.i 0, .i 1, .i 2]
  | some .XError1 => [.x 0, .i 1, .i 2]
  | some .XError2 => [.i 0, .x 1, .i 2]
  | some .XError3 => [.i 0, .i 1, .x 2]
  | some .XError12 => [.x 0, .x 1, .i 2]
  | some .XError13 => [.x 0, .i 1, .x 2]
  | some .XError23 => [.i 0, .x 1, .x 2]
  | some .ZError1 => [.z 0, .i 1, .i 2]
  | some .ZError2 => [.i 0, .z 1, .i 2]
  | some .YError1 => [.y 0, .i 1, .i 2]
  | some .YError2 => [.i 0, .y 1, .i 2]
  | none => []

/-- The parity-check block of qcirc: `qc.cx(q, a[0]); qc.cx(d[0], a[0]);
qc.cx(q, a[1]); qc.cx(d[1], a[1]); qc.barrier()`. -/
def parityGates : List Gate := [.cx 0 3, .cx 1 3, .cx 0 4, .cx 2 4, .barrier]

/-- The circuit-builder `qcirc(i, measure_all=False)`.  With measure_all
False it creates a 2-bit classical register and measures the two ancillas
into it; with measure_all True Qiskit's `measure_all()` adds a 5-bit
classical register, a barrier, and measures every qubit. -/
def qcirc (i : Option ErrorSims) (measure_all : Bool := false) : QuantumCircuit :=
  { numQubits := 5
    numClbits := if measure_all then 5 else 2
    gates := [Gate.cx 0 1, Gate.cx 1 2, Gate.barrier]
      ++ errGates i
      ++ [Gate.barrier]
      ++ [Gate.cx 0 3, Gate.cx 1 3, Gate.cx 0 4, Gate.cx 2 4, Gate.barrier]
      ++ (if measure_all then [Gate.barrier] else [])
    measurements :=
      if measure_all then [(0, 0), (1, 1), (2, 2), (3, 3), (4, 4)]
      else [(3, 0), (4, 1)] }

/-- qcirc with an exception-recording result type: no statement in the
body of qcirc can raise (register construction and gate appends on the
locally built registers always succeed, and an unmatched `match` subject
falls through), so it always returns `Except.ok`. -/
def qcircE (i : Option ErrorSims) (measure_all : Bool := false) :
    Except String QuantumCircuit :=
  Except.ok (qcirc i measure_all)

/-- Classical action of a gate on a computational-basis state of the five
qubits (bit i of the list is qubit i): X and Y flip the bit, I and Z fix
it, CX flips the target iff the control is set, barriers do nothing. -/
def applyGate (s : List Bool) : Gate → List Bool
  | .i _ => s
  | .x q => s.set q (!(s.getD q false))
  | .y q => s.set q (!(s.getD q false))
  | .z _ => s
  | .cx c t => if s.getD c false then s.set t (!(s.getD t false)) else s
  | .barrier => s

/-- Basis state reached from |00000> after all gates of the circuit. -/
def finalState (qc : QuantumCircuit) : List Bool :=
  qc.gates.foldl applyGate (List.replicate 5 false)

/-- The classical bits produced by one measurement shot: every (qubit,
clbit) pair copies the qubit's basis-state bit into the clbit.  The
circuits here are deterministic, so every shot agrees. -/
def shotBits (qc : QuantumCircuit) : List Bool :=
  qc.measurements.foldl
    (fun cs p => cs.set p.2 ((finalState qc).getD p.1 false))
    (List.replicate qc.numClbits false)

/-- Character of one classical bit in a Qiskit counts key. -/
def bitChar (b : Bool) : Char := if b then '1' else '0'

/-- The counts key of a deterministic circuit: classical bits printed with
the highest classical index leftmost. -/
def outcomeKey (qc : QuantumCircuit) : String :=
  String.mk ((shotBits qc).reverse.map bitChar)

/-- Result object returned by the Aer simulator job: here just the counts
histogram, an insertion-ordered association list. -/
structure SimResult where
  counts : List (String × Nat)
deriving DecidableEq, Repr

/-- `QasmSimulator.run(qc, shots).result()`: the circuits built by qcirc
are deterministic on basis states, so all shots give `outcomeKey qc` and
get_counts reports the single entry (key, shots). -/
def QasmSimulator.run (qc : QuantumCircuit) (shots : Nat) : SimResult :=
  { counts := [(outcomeKey qc, shots)] }

/-- `result.get_counts()`. -/
def SimResult.get_counts (r : SimResult) : List (String × Nat) := r.counts

/-- `qcirc_sim(qc)`: run the circuit on the Qasm simulator with 1024
shots and return the counts unchanged. -/
def qcirc_sim (qc : QuantumCircuit) : List (String × Nat) :=
  let job := QasmSimulator.run qc 1024
  let result := job
  let counts := result.get_counts
  counts

/-- Python dict lookup `d[k]` on the association-list model (keys looked
up in the loop of counts_bit_reversed are always present). -/
def dictGet (d : List (String × Nat)) (k : String) : Nat :=
  ((d.find? (fun p => p.1 == k)).map Prod.snd).getD 0

/-- Python dict assignment `d[k] = v`: overwrite in place when the key
exists, append otherwise. -/
def dictSet (d : List (String × Nat)) (k : String) (v : Nat) :
    List (String × Nat) :=
  match d with
  | [] => [(k, v)]
  | p :: rest => if p.1 == k then (k, v) :: rest else p :: dictSet rest k v

/-- `''.join([i for i in s][::-1])`: character reversal of a string. -/
def strRev (s : String) : String := String.mk s.data.reverse

/-- `counts_bit_reversed(counts)`: for each key b of the histogram,
assign, under the reversal of the FIRST key, the value `counts[b]`. -/
def counts_bit_reversed (counts : List (String × Nat)) :
    List (String × Nat) :=
  (counts.map Prod.fst).foldl
    (fun a b =>
      dictSet a (strRev ((counts.map Prod.fst).headD "")) (dictGet counts b))
    []

/-- Measurement outcome recorded for a given qubit: `none` when the qubit
is not measured, otherwise the classical bit it was measured into. -/
def qubitOutcome (qc : QuantumCircuit) (q : Nat) : Option Bool :=
  (qc.measurements.find? (fun p => p.1 == q)).map
    (fun p => (shotBits qc).getD p.2 false)

/-- One notebook cell pair per scenario: build the circuit, simulate it. -/
def runAll (l : List (Option ErrorSims × Bool)) : List (List (String × Nat)) :=
  l.map (fun p => qcirc_sim (qcirc p.1 p.2))

/-- The circuits built by a list of scenario runs. -/
def buildAll (l : List (Option ErrorSims × Bool)) : List QuantumCircuit :=
  l.map (fun p => qcirc p.1 p.2)

/-- Claim C1: with measure_all left False, every simulated shot of the
NoError, XError1, XError2 and XError3 circuits yields the fixed expected
syndrome on the two ancilla bits, read in ancilla order a0 a1 after
counts_bit_reversed: 00, 11, 10 and 01 respectively (the full 1024-shot
count on a single key shows every shot agrees). -/
theorem single_bitflip_syndromes :
    counts_bit_reversed (qcirc_sim (qcirc (some ErrorSims.NoError) false))
        = [("00", 1024)]
    ∧ counts_bit_reversed (qcirc_sim (qcirc (some ErrorSims.XError1) false))
        = [("11", 1024)]
    ∧ counts_bit_reversed (qcirc_sim (qcirc (some ErrorSims.XError2) false))
        = [("10", 1024)]
    ∧ counts_bit_reversed (qcirc_sim (qcirc (some ErrorSims.XError3) false))
        = [("01", 1024)] := by
  decide

/-- Claim C2: each double bit-flip scenario measures the syndrome of the
complementary single error — XError12 gives 01 (XError3's syndrome),
XError13 gives 10 (XError2's), XError23 gives 11 (XError1's) — so the
double error is misdiagnosed as a single error on the remaining qubit. -/
theorem double_bitflip_syndromes :
    (counts_bit_reversed (qcirc_sim (qcirc (some ErrorSims.XError12) false))
        = [("01", 1024)]
      ∧ counts_bit_reversed (qcirc_sim (qcirc (some ErrorSims.XError12) false))
        = counts_bit_reversed (qcirc_sim (qcirc (some ErrorSims.XError3) false)))
    ∧ (counts_bit_reversed (qcirc_sim (qcirc (some ErrorSims.XError13) false))
        = [("10", 1024)]
      ∧ counts_bit_reversed (qcirc_sim (qcirc (some ErrorSims.XError13) false))
        = counts_bit_reversed (qcirc_sim (qcirc (some ErrorSims.XError2) false)))
    ∧ (counts_bit_reversed (qcirc_sim (qcirc (some ErrorSims.XError23) false))
        = [("11", 1024)]
      ∧ counts_bit_reversed (qcirc_sim (qcirc (some ErrorSims.XError23) false))
        = counts_bit_reversed (qcirc_sim (qcirc (some ErrorSims.XError1) false))) := by
  decide

/-- Claim C3: for either measure_all flag, the two ancilla bits (a0 at
qubit 3, a1 at qubit 4) of the measured outcome are 00 for ZError1 and
ZError2 (the phase error goes undetected), and for YError1 and YError2
they equal the syndrome of the corresponding pure bit-flip, 11 as for
XError1 and 10 as for XError2: only the bit-flip component is seen. -/
theorem phase_and_y_error_syndromes : ∀ m : Bool,
    (qubitOutcome (qcirc (some ErrorSims.ZError1) m) 3 = some false
      ∧ qubitOutcome (qcirc (some ErrorSims.ZError1) m) 4 = some false)
    ∧ (qubitOutcome (qcirc (some ErrorSims.ZError2) m) 3 = some false
      ∧ qubitOutcome (qcirc (some ErrorSims.ZError2) m) 4 = some false)
    ∧ (qubitOutcome (qcirc (some ErrorSims.YError1) m) 3 = some true
      ∧ qubitOutcome (qcirc (some ErrorSims.YError1) m) 4 = some true
      ∧ qubitOutcome (qcirc (some ErrorSims.YError1) m) 3
          = qubitOutcome (qcirc (some ErrorSims.XError1) m) 3
      ∧ qubitOutcome (qcirc (some ErrorSims.YError1) m) 4
          = qubitOutcome (qcirc (some ErrorSims.XError1) m) 4)
    ∧ (qubitOutcome (qcirc (some ErrorSims.YError2) m) 3 = some true
      ∧ qubitOutcome (qcirc (some ErrorSims.YError2) m) 4 = some false
      ∧ qubitOutcome (qcirc (some ErrorSims.YError2) m) 3
          = qubitOutcome (qcirc (some ErrorSims.XError2) m) 3
      ∧ qubitOutcome (qcirc (some ErrorSims.YError2) m) 4
          = qubitOutcome (qcirc (some ErrorSims.XError2) m) 4) := by
  decide

/-- Claim C4: for every scenario tag, qcirc appends the same fixed
sequence — the encoding block (CX from the data qubit 0 to redundancy
qubit 1, then CX from 1 to 2), then the tag's statically looked-up error
gates (exactly one single-qubit gate on each of the data qubits 0, 1, 2),
then the parity checks (CX from 0 and 1 onto ancilla 3, CX from 0 and 2
onto ancilla 4), then measurement of the two ancillas. -/
theorem qcirc_gate_structure : ∀ t : ErrorSims,
    (qcirc (some t) false).gates
        = encodeGates ++ errGates (some t) ++ [Gate.barrier] ++ parityGates
    ∧ (errGates (some t)).map Gate.target1 = [some 0, some 1, some 2]
    ∧ (qcirc (some t) false).measurements = [(3, 0), (4, 1)] := by
  decide

/-- Claim C5: every key of the histogram returned by qcirc_sim has length
equal to the circuit's number of measured classical bits, which is 2 with
measure_all False and 5 with measure_all True. -/
theorem counts_key_length : ∀ (t : ErrorSims) (m : Bool),
    ((qcirc (some t) m).numClbits = if m then 5 else 2)
    ∧ ((qcirc_sim (qcirc (some t) m)).all
        (fun p => p.1.length == (qcirc (some t) m).numClbits) = true) := by
  decide

/-- Counterexample to claim C6: an input outside the eleven ErrorSims
tags does not make qcirc raise an error from the underlying library — the
call returns a circuit normally. -/
theorem unsupported_tag_no_exception :
    ¬ ∃ e : String, qcircE none false = Except.error e := by
  rintro ⟨e, h⟩
  exact Except.noConfusion h

/-- Claim C6 as amended: qcirc itself has no local recovery, retry or
error handling, but an unsupported scenario tag raises nothing at all —
the match statement matches no case and qcirc returns a normally built
circuit whose error-injection segment is empty. -/
theorem unsupported_tag_builds_circuit : ∀ (i : Option ErrorSims) (m : Bool),
    qcircE i m = Except.ok (qcirc i m)
    ∧ errGates none = []
    ∧ (qcirc none m).gates
        = encodeGates ++ [Gate.barrier] ++ parityGates
          ++ (if m then [Gate.barrier] else []) := by
  intro i m
  refine ⟨rfl, rfl, ?_⟩
  cases m <;> decide

/-- Claim C7: qcirc_sim is a direct pass-through — it runs the circuit on
the Qasm simulator with 1024 shots and returns the result's counts
unchanged, which for these deterministic circuits is the single-entry
histogram on the circuit's outcome key. -/
theorem qcirc_sim_passthrough : ∀ qc : QuantumCircuit,
    qcirc_sim qc = (QasmSimulator.run qc 1024).get_counts
    ∧ qcirc_sim qc = [(outcomeKey qc, 1024)] :=
  fun _ => ⟨rfl, rfl⟩

/-- Claim C8: circuit construction and simulation are deterministic and
stateless — in any two sequences of scenario runs that agree at position
j, both the circuit built and the simulated counts at position j agree,
so no other run can influence run j. -/
theorem scenario_runs_independent
    (l₁ l₂ : List (Option ErrorSims × Bool)) (j : Nat)
    (h : l₁[j]? = l₂[j]?) :
    (buildAll l₁)[j]? = (buildAll l₂)[j]?
    ∧ (runAll l₁)[j]? = (runAll l₂)[j]? := by
  constructor
  · simp only [buildAll, List.getElem?_map, h]
  · simp only [runAll, List.getElem?_map, h]

/-- Witness for scenario_runs_independent at concrete run lists sharing
entry 0. -/
theorem scenario_runs_independent_witness :
    (buildAll [(some ErrorSims.NoError, false)])[0]?
        = (buildAll [(some ErrorSims.NoError, false),
            (some ErrorSims.XError1, true)])[0]?
    ∧ (runAll [(some ErrorSims.NoError, false)])[0]?
        = (runAll [(some ErrorSims.NoError, false),
            (some ErrorSims.XError1, true)])[0]? :=
  scenario_runs_independent [(some ErrorSims.NoError, false)]
    [(some ErrorSims.NoError, false), (some ErrorSims.XError1, true)] 0 (by decide)

/-- Counterexample to claim C9: the notebook builds qcirc(ZError1, True),
and that circuit measures data qubit 0 (and indeed all three data
qubits), so syndrome extraction is not confined to the ancillas for every
circuit built by qcirc. -/
theorem measure_all_measures_data_qubit :
    ((qcirc (some ErrorSims.ZError1) true).measurements.map Prod.fst).contains 0
      = true := by
  decide

/-- Claim C9 as amended: with measure_all False (the default) the circuit
measures exactly the two ancilla qubits 3 and 4 and never a data qubit,
so the encoded data state is not collapsed; with measure_all True all
five qubits, data qubits included, are measured. -/
theorem measured_qubits_by_flag : ∀ i : Option ErrorSims,
    (qcirc i false).measurements.map Prod.fst = [3, 4]
    ∧ (qcirc i true).measurements.map Prod.fst = [0, 1, 2, 3, 4] := by
  decide

/-- Assigning into the empty dict creates the single entry. -/
theorem dictSet_nil (k : String) (v : Nat) : dictSet [] k v = [(k, v)] := rfl

/-- Assigning an existing key of a one-entry dict overwrites its value. -/
theorem dictSet_single (k : String) (v w : Nat) :
    dictSet [(k, v)] k w = [(k, w)] := by
  simp [dictSet]

/-- Repeatedly assigning the same key keeps a one-entry dict whose value
is the one written last. -/
theorem foldl_dictSet_const (k : String) (g : String → Nat) :
    ∀ (bs : List String) (v : Nat),
      List.foldl (fun a b => dictSet a k (g b)) [(k, v)] bs
        = [(k, (bs.map g).getLastD v)] := by
  intro bs
  induction bs with
  | nil => intro v; rfl
  | cons b bs ih =>
    intro v
    simp only [List.foldl_cons, dictSet_single, List.map_cons,
      List.getLastD_cons]
    exact ih (g b)

/-- getLastD commutes with map when the default is also mapped. -/
theorem getLastD_map_comm {α β : Type _} (g : α → β) :
    ∀ (l : List α) (a : α), (l.map g).getLastD (g a) = g (l.getLastD a) := by
  intro l
  induction l with
  | nil => intro a; rfl
  | cons b l ih =>
    intro a
    simp only [List.map_cons, List.getLastD_cons]
    exact ih b

/-- The last element (with default) of a non-empty list is a member. -/
theorem getLastD_mem_of_ne_nil {α : Type _} :
    ∀ (l : List α) (d : α), l ≠ [] → l.getLastD d ∈ l := by
  intro l
  induction l with
  | nil => intro d h; exact absurd rfl h
  | cons b l ih =>
    intro d _
    rw [List.getLastD_cons]
    by_cases hl : l = []
    · subst hl; simp
    · exact List.mem_cons_of_mem b (ih b hl)

/-- Looking up a key of a dict with pairwise-distinct keys returns the
value stored with it. -/
theorem dictGet_of_mem (k : String) (v : Nat) :
    ∀ l : List (String × Nat), (l.map Prod.fst).Nodup → (k, v) ∈ l →
      dictGet l k = v := by
  intro l
  induction l with
  | nil => intro _ h; cases h
  | cons p rest ih =>
    intro hnd hmem
    rw [List.map_cons, List.nodup_cons] at hnd
    by_cases hk : p.1 = k
    · have hv : v = p.2 := by
        rcases List.mem_cons.mp hmem with h | h
        · rw [← h]
        · exact absurd (List.mem_map.mpr ⟨(k, v), h, hk.symm⟩) hnd.1
      have hfind : List.find? (fun q => q.1 == k) (p :: rest) = some p :=
        List.find?_cons_of_pos _ (by simp [hk])
      simp [dictGet, hfind, hv]
    · have hmem' : (k, v) ∈ rest := by
        rcases List.mem_cons.mp hmem with h | h
        · exact absurd (show p.1 = k by rw [← h]) hk
        · exact h
      have hfind : List.find? (fun q => q.1 == k) (p :: rest)
          = List.find? (fun q => q.1 == k) rest :=
        List.find?_cons_of_neg _ (by simp [hk])
      have hstep : dictGet (p :: rest) k = dictGet rest k := by
        simp [dictGet, hfind]
      rw [hstep]
      exact ih hnd.2 hmem'

/-- Claim C10: on any non-empty histogram (a Python dict, so its keys are
pairwise distinct), counts_bit_reversed returns a dict with exactly one
key — the character reversal of the FIRST input key — holding the count
of the last key iterated; a multi-outcome histogram is collapsed to one
entry instead of having each key reversed. -/
theorem counts_bit_reversed_single_key (counts : List (String × Nat))
    (h1 : counts ≠ []) (h2 : (counts.map Prod.fst).Nodup) :
    counts_bit_reversed counts
      = [(strRev ((counts.headD ("", 0)).1), (counts.getLastD ("", 0)).2)] := by
  cases counts with
  | nil => exact absurd rfl h1
  | cons p rest =>
    have hmem : (p :: rest).getLastD ("", 0) ∈ p :: rest :=
      getLastD_mem_of_ne_nil _ _ (by simp)
    have hget : dictGet (p :: rest) (((p :: rest).getLastD ("", 0)).1)
        = ((p :: rest).getLastD ("", 0)).2 :=
      dictGet_of_mem _ _ _ h2 (by simpa using hmem)
    simp only [counts_bit_reversed, List.map_cons, List.headD_cons,
      List.foldl_cons, dictSet_nil]
    rw [foldl_dictSet_const]
    rw [getLastD_map_comm]
    rw [getLastD_map_comm]
    rw [List.getLastD_cons] at hget
    simp only [List.getLastD_cons]
    rw [hget]

/-- Witness for counts_bit_reversed_single_key: the concrete two-outcome
histogram {"01": 3, "10": 5} collapses to the single entry {"10": 5}. -/
theorem counts_bit_reversed_single_key_witness :
    counts_bit_reversed [("01", 3), ("10", 5)] = [("10", 5)] :=
  (counts_bit_reversed_single_key [("01", 3), ("10", 5)]
      (by decide) (by decide)).trans (by decide)
